import Mathlib

/-
  Verification of the pallet-optimization core of src/app.py
  (class PalletOptimizer: model building in otimizar, metrics in
  calcular_metricas, geometry projection in criar_visualizacao_3d).

  The CP-SAT model built by otimizar is embedded as an explicit list of
  linear constraints over boolean variables; an assignment of the boolean
  variables satisfies the model when every constraint in the list holds.
-/

namespace Paletizador

/-- Global scale constant from the source: SCALE_VOL = 1_000_000. -/
def SCALE_VOL : ℤ := 1000000

/-- Global scale constant from the source: SCALE_MASS = 1_000. -/
def SCALE_MASS : ℤ := 1000

/-- An item as built by the source (dict with keys id, nome, categoria,
l, w, h, vol, mass, f, o, prioridade, destino).  Dimensions are rationals
(floats in the source are used only for geometry); vol and mass are
integers (the source stores them via int(...)). -/
structure Item where
  id : Nat
  nome : String
  categoria : String
  l : ℚ
  w : ℚ
  h : ℚ
  vol : ℤ
  mass : ℤ
  f : Bool
  o : Bool
  prioridade : ℤ
  destino : String
deriving DecidableEq

/-- The pallets_config dict of the source: quantidade, capacidade_massa,
capacidade_volume, tipo. -/
structure PalletsConfig where
  quantidade : Nat
  capacidade_massa : ℤ
  capacidade_volume : ℤ
  tipo : String
deriving DecidableEq

/-- Placeholder used to totalize list indexing; every indexed access in the
development stays within bounds. -/
def dummyItem : Item :=
  { id := 0, nome := "", categoria := "", l := 0, w := 0, h := 0, vol := 0,
    mass := 0, f := false, o := false, prioridade := 1, destino := "" }

/-- Item at position i of the list (itens[i] in the source). -/
def it (itens : List Item) (i : Nat) : Item := itens.getD i dummyItem

/-- The boolean decision variables of otimizar: x[i,p] (item i on pallet p),
r[i,k] (rotation k for item i), s[i,j] (item i stacked on item j). -/
inductive Var where
  | x : Nat → Nat → Var
  | r : Nat → Nat → Var
  | s : Nat → Nat → Var
deriving DecidableEq

/-- One linear term coeff·var of a constraint. -/
structure LinTerm where
  coeff : ℤ
  var : Var
deriving DecidableEq

/-- A linear constraint of the CP-SAT model: a sum of terms compared to an
integer bound, either with ≤ or with =. -/
inductive Constr where
  | le : List LinTerm → ℤ → Constr
  | eq : List LinTerm → ℤ → Constr
deriving DecidableEq

/-- Terms appearing on the left-hand side of a constraint. -/
def Constr.termos : Constr → List LinTerm
  | .le ts _ => ts
  | .eq ts _ => ts

/-- Value of one linear term under a boolean assignment. -/
def evalTerm (a : Var → Bool) (t : LinTerm) : ℤ := if a t.var then t.coeff else 0

/-- Value of a linear sum under a boolean assignment. -/
def evalSum (a : Var → Bool) (ts : List LinTerm) : ℤ := (ts.map (evalTerm a)).sum

/-- Satisfaction of one constraint. -/
def satC (a : Var → Bool) : Constr → Prop
  | .le ts b => evalSum a ts ≤ b
  | .eq ts b => evalSum a ts = b

instance (a : Var → Bool) : DecidablePred (satC a) := fun c =>
  match c with
  | .le ts b => inferInstanceAs (Decidable (evalSum a ts ≤ b))
  | .eq ts b => inferInstanceAs (Decidable (evalSum a ts = b))

/-- Satisfaction of a whole model (all constraints hold). -/
def satModel (a : Var → Bool) (cs : List Constr) : Prop := ∀ c ∈ cs, satC a c

instance (a : Var → Bool) (cs : List Constr) : Decidable (satModel a cs) :=
  List.decidableBAll _ cs

/-- The at-most-one-pallet constraint for item i: the sum of x[i,p] over
all P pallets is at most 1. -/
def maxUmaPaleteConstr (P i : Nat) : Constr :=
  Constr.le ((List.range P).map fun p => ⟨1, Var.x i p⟩) 1

/-- The rotation constraint for a rotatable item i: the sum of r[i,k] over
the six orientations equals 1. -/
def rotUnicaConstr (i : Nat) : Constr :=
  Constr.eq ((List.range 6).map fun k => ⟨1, Var.r i k⟩) 1

/-- A constraint fixing a single rotation variable r[i,k] to the value b. -/
def rEqConstr (i k : Nat) (b : ℤ) : Constr :=
  Constr.eq [⟨1, Var.r i k⟩] b

/-- A constraint forcing the stacking variable s[i,j] to zero. -/
def sZeroConstr (i j : Nat) : Constr :=
  Constr.eq [⟨1, Var.s i j⟩] 0

/-- The per-pallet mass-capacity constraint for pallet p. -/
def capMassConstr (itens : List Item) (cfg : PalletsConfig) (p : Nat) : Constr :=
  Constr.le ((List.range itens.length).map fun i => ⟨(it itens i).mass, Var.x i p⟩)
    cfg.capacidade_massa

/-- The per-pallet volume-capacity constraint for pallet p. -/
def capVolConstr (itens : List Item) (cfg : PalletsConfig) (p : Nat) : Constr :=
  Constr.le ((List.range itens.length).map fun i => ⟨(it itens i).vol, Var.x i p⟩)
    cfg.capacidade_volume

/-- Per-item constraints of otimizar (the first loop over i): each item on
at most one pallet, then the rotation constraints, which depend on the
rotatable flag o. -/
def restricoesItem (itens : List Item) (P : Nat) : List Constr :=
  (List.range itens.length).flatMap fun i =>
    maxUmaPaleteConstr P i ::
      (if (it itens i).o then
        [rotUnicaConstr i]
      else
        rEqConstr i 0 1 :: ((List.range 5).map fun k => rEqConstr i (k + 1) 0))

/-- Stacking constraints of otimizar: for every ordered pair of distinct
items, s[i,j] = 0 when item j is fragile, and s[i,j] = 0 when item i is
strictly heavier than item j. -/
def restricoesEmpilhamento (itens : List Item) : List Constr :=
  (List.range itens.length).flatMap fun i =>
    (List.range itens.length).flatMap fun j =>
      if i = j then []
      else
        (if (it itens j).f then [sZeroConstr i j] else []) ++
          (if (it itens i).mass > (it itens j).mass then [sZeroConstr i j] else [])

/-- Capacity constraints of otimizar: per pallet, total assigned mass at
most capacidade_massa and total assigned volume at most capacidade_volume. -/
def restricoesCapacidade (itens : List Item) (cfg : PalletsConfig) : List Constr :=
  (List.range cfg.quantidade).flatMap fun p =>
    [capMassConstr itens cfg p, capVolConstr itens cfg p]

/-- The full constraint list built by otimizar, in source order. -/
def buildModel (itens : List Item) (cfg : PalletsConfig) : List Constr :=
  restricoesItem itens cfg.quantidade ++ restricoesEmpilhamento itens ++
    restricoesCapacidade itens cfg

/-- The objective of otimizar: sum over items i and pallets p of
x[i,p] · vol(i) · prioridade(i). -/
def objetivo (itens : List Item) (P : Nat) : List LinTerm :=
  (List.range itens.length).flatMap fun i =>
    (List.range P).map fun p => ⟨(it itens i).vol * (it itens i).prioridade, Var.x i p⟩

/-- The all-unloaded assignment: no item on any pallet, rotation 0 for every
item, no stacking.  Used to show that no model constraint forces loading. -/
def unloadedAssign : Var → Bool
  | .x _ _ => false
  | .r _ k => k == 0
  | .s _ _ => false

/-- The six axis permutations of the dimensions, from PalletOptimizer.
permutacoes, in source order; index 0 is the original (l, w, h). -/
def permutacoes (l w h : ℚ) : List (ℚ × ℚ × ℚ) :=
  [(l, w, h), (l, h, w), (w, l, h), (w, h, l), (h, l, w), (h, w, l)]

/-- The orientation index extracted from a solved assignment: the first
k in range(6) with r[i,k] true (the next(...) expression of the source). -/
def orientIndex (a : Var → Bool) (i : Nat) : Option Nat :=
  (List.range 6).find? fun k => a (Var.r i k)

/-- Concrete fixture item for witnesses. -/
def item0 : Item :=
  { id := 0, nome := "Item_1", categoria := "Geral", l := 1, w := 1, h := 1,
    vol := 3, mass := 5, f := false, o := false, prioridade := 2,
    destino := "Salvador" }

/-- Concrete fixture item list for witnesses. -/
def itens0 : List Item := [item0]

/-- The fixture list with a different mass and destination but the same
volume and priority, to witness that the objective ignores mass and
destination. -/
def itensMass0 : List Item :=
  [{ id := 0, nome := "Item_1b", categoria := "Geral", l := 1, w := 1, h := 1,
     vol := 3, mass := 9, f := false, o := false, prioridade := 2,
     destino := "Recife" }]

/-- Concrete fixture configuration for witnesses. -/
def cfg0 : PalletsConfig := ⟨1, 10, 10, "PBR"⟩

/-- Two-item fixture: item 0 is non-rotatable and non-fragile with mass 5,
item 1 is rotatable, fragile and heavier (mass 7). -/
def itensEmp0 : List Item :=
  [item0,
   { id := 1, nome := "Item_2", categoria := "Geral", l := 1, w := 2, h := 1,
     vol := 2, mass := 7, f := true, o := true, prioridade := 1,
     destino := "Rio de Janeiro" }]

/-- Concrete fixture assignment for witnesses: the single item of itens0 is
on pallet 0 in rotation 0. -/
def assign0 : Var → Bool
  | .x 0 0 => true
  | .x _ _ => false
  | .r _ k => k == 0
  | .s _ _ => false

/-- Outcome of the model-building phase of otimizar.  The constructor
invalidConfiguration is modelled from the spec wording (the source has no
validation and no error path); modelToSolve carries the constraints and
objective handed to the solver. -/
inductive BuildOutcome where
  | invalidConfiguration
  | modelToSolve : List Constr → List LinTerm → BuildOutcome
deriving DecidableEq

/-- The pre-solve phase of otimizar exactly as written in the source: the
model is built and handed to the solver unconditionally; there is no
validation branch, so no input ever produces invalidConfiguration. -/
def otimizarBuild (itens : List Item) (cfg : PalletsConfig) : BuildOutcome :=
  .modelToSolve (buildModel itens cfg) (objetivo itens cfg.quantidade)

/-- The count of items on pallet p (itens_palete in calcular_metricas). -/
def paleteItens (itens : List Item) (a : Var → Bool) (p : Nat) : Nat :=
  ∑ i ∈ Finset.range itens.length, if a (Var.x i p) then 1 else 0

/-- The total volume on pallet p (volume_palete in calcular_metricas). -/
def paleteVolume (itens : List Item) (a : Var → Bool) (p : Nat) : ℤ :=
  ∑ i ∈ Finset.range itens.length, if a (Var.x i p) then (it itens i).vol else 0

/-- The total mass on pallet p (peso_palete in calcular_metricas). -/
def paletePeso (itens : List Item) (a : Var → Bool) (p : Nat) : ℤ :=
  ∑ i ∈ Finset.range itens.length, if a (Var.x i p) then (it itens i).mass else 0

/-- The number of pallets holding at least one item (pallets_utilizados). -/
def palletsUtilizados (itens : List Item) (a : Var → Bool) (P : Nat) : Nat :=
  ∑ p ∈ Finset.range P, if 0 < paleteItens itens a p then 1 else 0

/-- Volume accumulated over used pallets (volume_total_utilizado). -/
def volumeTotalUtilizado (itens : List Item) (a : Var → Bool) (P : Nat) : ℤ :=
  ∑ p ∈ Finset.range P, if 0 < paleteItens itens a p then paleteVolume itens a p else 0

/-- Mass accumulated over used pallets (peso_total_utilizado). -/
def pesoTotalUtilizado (itens : List Item) (a : Var → Bool) (P : Nat) : ℤ :=
  ∑ p ∈ Finset.range P, if 0 < paleteItens itens a p then paletePeso itens a p else 0

/-- Items counted over used pallets (itens_carregados). -/
def itensCarregados (itens : List Item) (a : Var → Bool) (P : Nat) : Nat :=
  ∑ p ∈ Finset.range P, if 0 < paleteItens itens a p then paleteItens itens a p else 0

/-- The metrics dict built by calcular_metricas. -/
structure Metricas where
  pallets_utilizados : Nat
  itens_carregados : Nat
  itens_total : Nat
  taxa_utilizacao_itens : ℚ
  volume_utilizado : ℚ
  volume_disponivel : ℚ
  taxa_utilizacao_volume : ℚ
  peso_utilizado : ℚ
  peso_disponivel : ℚ
  taxa_utilizacao_peso : ℚ
deriving DecidableEq

/-- Result of calcular_metricas: the empty dict when no solver result is
given, otherwise a full metrics record. -/
inductive MetricasResult where
  | vazio
  | metricas : Metricas → MetricasResult
deriving DecidableEq

/-- Error raised by a Python division whose denominator is zero. -/
inductive CalcError where
  | zeroDivision
deriving DecidableEq

/-- calcular_metricas of the source: returns the empty dict when the solver
argument is absent; otherwise accumulates the per-pallet totals over used
pallets and builds the metrics dict.  The expression itens_carregados /
len(itens) raises ZeroDivisionError when the item list is empty, so that
case returns the error; the volume and mass utilization rates are guarded
by the positivity of the corresponding available totals. -/
def calcular_metricas (itens : List Item) (solver : Option (Var → Bool))
    (cfg : PalletsConfig) : Except CalcError MetricasResult :=
  match solver with
  | none => .ok .vazio
  | some a =>
    let P := cfg.quantidade
    let pu := palletsUtilizados itens a P
    let vtu := volumeTotalUtilizado itens a P
    let ptu := pesoTotalUtilizado itens a P
    let ic := itensCarregados itens a P
    let vtd : ℤ := cfg.capacidade_volume * pu
    let ptd : ℤ := cfg.capacidade_massa * pu
    if itens.length = 0 then .error .zeroDivision
    else .ok (.metricas
      { pallets_utilizados := pu
        itens_carregados := ic
        itens_total := itens.length
        taxa_utilizacao_itens := ((ic : ℚ) / (itens.length : ℚ)) * 100
        volume_utilizado := (vtu : ℚ) / (SCALE_VOL : ℚ)
        volume_disponivel := (vtd : ℚ) / (SCALE_VOL : ℚ)
        taxa_utilizacao_volume := if 0 < vtd then ((vtu : ℚ) / (vtd : ℚ)) * 100 else 0
        peso_utilizado := (ptu : ℚ) / (SCALE_MASS : ℚ)
        peso_disponivel := (ptd : ℚ) / (SCALE_MASS : ℚ)
        taxa_utilizacao_peso := if 0 < ptd then ((ptu : ℚ) / (ptd : ℚ)) * 100 else 0 })

/-- The permuted dimensions used for the box of item i in the 3D
visualization: the permutacoes list indexed by the extracted orientation. -/
def dimsOrientadas (a : Var → Bool) (item : Item) (i : Nat) : ℚ × ℚ × ℚ :=
  (permutacoes item.l item.w item.h).getD ((orientIndex a i).getD 0)
    (item.l, item.w, item.h)

/-- One plotted box of criar_visualizacao_3d: item index, box origin in
global coordinates, and the permuted dimensions. -/
structure Placement where
  item_index : Nat
  x0 : ℚ
  y0 : ℚ
  z0 : ℚ
  boxl : ℚ
  boxw : ℚ
  boxh : ℚ
deriving DecidableEq

/-- The inner item loop of criar_visualizacao_3d for one pallet: items are
scanned in ascending index order carrying the running height cursor z_top;
every assigned item is placed at the pallet x-offset with y = 0 and z at
the cursor, which then advances by the permuted height. -/
def placeAux (a : Var → Bool) (p : Nat) (offx : ℚ) :
    List Item → Nat → ℚ → List Placement
  | [], _, _ => []
  | item :: rest, i, ztop =>
    if a (Var.x i p) then
      ⟨i, offx, 0, ztop, (dimsOrientadas a item i).1, (dimsOrientadas a item i).2.1,
          (dimsOrientadas a item i).2.2⟩ ::
        placeAux a p offx rest (i + 1) (ztop + (dimsOrientadas a item i).2.2)
    else placeAux a p offx rest (i + 1) ztop

/-- The box placements produced for pallet p by criar_visualizacao_3d:
pallets are offset along the x axis by 2.5 per pallet index, and the
height cursor of each pallet starts at 0. -/
def criarVisualizacaoPalete (itens : List Item) (a : Var → Bool) (p : Nat) :
    List Placement :=
  placeAux a p ((p : ℚ) * (5 / 2)) itens 0 0

/-- Fixture assignment loading every item onto pallet 0 in rotation 0. -/
def assignBoth : Var → Bool
  | .x _ p => p == 0
  | .r _ k => k == 0
  | .s _ _ => false

/-- Fixture placement: the second box of the fixture pallet tower. -/
def plW : Placement := ⟨1, 0, 0, 1, 1, 2, 1⟩

/- Helper lemmas on evaluation of built sums. -/

theorem sum_map_range (f : Nat → ℤ) (n : Nat) :
    ((List.range n).map f).sum = ∑ i ∈ Finset.range n, f i := by
  induction n with
  | zero => simp
  | succ n ih =>
      rw [List.range_succ, List.map_append, List.sum_append, Finset.sum_range_succ, ih]
      simp

theorem evalSum_append (a : Var → Bool) (xs ys : List LinTerm) :
    evalSum a (xs ++ ys) = evalSum a xs + evalSum a ys := by
  simp [evalSum]

theorem evalSum_map_range (a : Var → Bool) (c : Nat → ℤ) (v : Nat → Var) (n : Nat) :
    evalSum a ((List.range n).map fun i => ⟨c i, v i⟩) =
      ∑ i ∈ Finset.range n, if a (v i) then c i else 0 := by
  rw [evalSum, List.map_map, sum_map_range]
  rfl

theorem evalSum_range_bind (a : Var → Bool) (f : Nat → List LinTerm) (n : Nat) :
    evalSum a ((List.range n).flatMap f) = ∑ i ∈ Finset.range n, evalSum a (f i) := by
  induction n with
  | zero => simp [evalSum]
  | succ n ih =>
      rw [List.range_succ, List.flatMap_append, evalSum_append, Finset.sum_range_succ, ih]
      simp [evalSum]

theorem mem_range_bind {α : Type} {c : α} {n : Nat} {f : Nat → List α} :
    c ∈ (List.range n).flatMap f ↔ ∃ i, i < n ∧ c ∈ f i := by
  simp [List.mem_flatMap]

/- Membership lemmas for the three constraint groups inside buildModel. -/

theorem mem_buildModel_item {itens : List Item} {cfg : PalletsConfig} {c : Constr}
    (h : c ∈ restricoesItem itens cfg.quantidade) : c ∈ buildModel itens cfg := by
  unfold buildModel
  exact List.mem_append.mpr (Or.inl (List.mem_append.mpr (Or.inl h)))

theorem mem_buildModel_empilhamento {itens : List Item} {cfg : PalletsConfig} {c : Constr}
    (h : c ∈ restricoesEmpilhamento itens) : c ∈ buildModel itens cfg := by
  unfold buildModel
  exact List.mem_append.mpr (Or.inl (List.mem_append.mpr (Or.inr h)))

theorem mem_buildModel_capacidade {itens : List Item} {cfg : PalletsConfig} {c : Constr}
    (h : c ∈ restricoesCapacidade itens cfg) : c ∈ buildModel itens cfg := by
  unfold buildModel
  exact List.mem_append.mpr (Or.inr h)

/-- Every constraint of the stacking group is a forced zero on a stacking
variable of a distinct in-range pair, generated by fragility or by strict
extra weight of the upper item. -/
theorem empilhamento_shape {itens : List Item} {c : Constr}
    (h : c ∈ restricoesEmpilhamento itens) :
    ∃ i j, i < itens.length ∧ j < itens.length ∧ i ≠ j ∧ c = sZeroConstr i j ∧
      ((it itens j).f = true ∨ (it itens j).mass < (it itens i).mass) := by
  rw [restricoesEmpilhamento, mem_range_bind] at h
  obtain ⟨i, hi, h⟩ := h
  rw [mem_range_bind] at h
  obtain ⟨j, hj, h⟩ := h
  by_cases hij : i = j
  · rw [if_pos hij] at h
    exact absurd h (List.not_mem_nil c)
  · rw [if_neg hij] at h
    refine ⟨i, j, hi, hj, hij, ?_⟩
    rcases List.mem_append.mp h with h | h
    · by_cases hf : (it itens j).f
      · rw [if_pos hf] at h
        rw [List.mem_singleton] at h
        exact ⟨h, Or.inl hf⟩
      · rw [if_neg hf] at h
        exact absurd h (List.not_mem_nil c)
    · by_cases hw : (it itens i).mass > (it itens j).mass
      · rw [if_pos hw] at h
        rw [List.mem_singleton] at h
        exact ⟨h, Or.inr hw⟩
      · rw [if_neg hw] at h
        exact absurd h (List.not_mem_nil c)

/-- The all-unloaded assignment satisfies every constraint of the built
model whenever the configured capacities are nonnegative: the model never
forces an item to be loaded. -/
theorem unloaded_sat (itens : List Item) (cfg : PalletsConfig)
    (hm : 0 ≤ cfg.capacidade_massa) (hv : 0 ≤ cfg.capacidade_volume) :
    satModel unloadedAssign (buildModel itens cfg) := by
  intro c hc
  unfold buildModel at hc
  rcases List.mem_append.mp hc with h | h
  swap
  · rw [restricoesCapacidade, mem_range_bind] at h
    obtain ⟨p, hp, h⟩ := h
    rcases List.mem_cons.mp h with rfl | h
    · simp only [capMassConstr, satC, evalSum_map_range]
      simpa [unloadedAssign] using hm
    · rw [List.mem_singleton] at h
      subst h
      simp only [capVolConstr, satC, evalSum_map_range]
      simpa [unloadedAssign] using hv
  rcases List.mem_append.mp h with h | h
  · rw [restricoesItem, mem_range_bind] at h
    obtain ⟨i, hi, h⟩ := h
    rcases List.mem_cons.mp h with rfl | h
    · simp only [maxUmaPaleteConstr, satC, evalSum_map_range]
      simp [unloadedAssign]
    · by_cases ho : (it itens i).o
      · rw [if_pos ho, List.mem_singleton] at h
        subst h
        simp only [rotUnicaConstr, satC, evalSum_map_range]
        simp [unloadedAssign, Finset.sum_ite_eq']
      · rw [if_neg ho] at h
        rcases List.mem_cons.mp h with rfl | h
        · simp [rEqConstr, satC, evalSum, evalTerm, unloadedAssign]
        · rw [List.mem_map] at h
          obtain ⟨k, _, rfl⟩ := h
          simp [rEqConstr, satC, evalSum, evalTerm, unloadedAssign]
  · obtain ⟨i, j, _, _, _, rfl, _⟩ := empilhamento_shape h
    simp [sZeroConstr, satC, evalSum, evalTerm, unloadedAssign]

/-- C1: for every pallet p below the configured pallet count, the built
model contains the aggregate mass-capacity and volume-capacity constraints
for pallet p, and consequently every assignment satisfying the model keeps
the total mass and the total volume assigned to pallet p within the
configured capacities. -/
theorem C1_capacidade_por_palete (itens : List Item) (cfg : PalletsConfig)
    (p : Nat) (hp : p < cfg.quantidade) :
    capMassConstr itens cfg p ∈ buildModel itens cfg ∧
    capVolConstr itens cfg p ∈ buildModel itens cfg ∧
    ∀ a : Var → Bool, satModel a (buildModel itens cfg) →
      (∑ i ∈ Finset.range itens.length,
          if a (Var.x i p) then (it itens i).mass else 0) ≤ cfg.capacidade_massa ∧
      (∑ i ∈ Finset.range itens.length,
          if a (Var.x i p) then (it itens i).vol else 0) ≤ cfg.capacidade_volume := by
  have hm : capMassConstr itens cfg p ∈ restricoesCapacidade itens cfg := by
    rw [restricoesCapacidade, mem_range_bind]
    exact ⟨p, hp, by simp⟩
  have hv : capVolConstr itens cfg p ∈ restricoesCapacidade itens cfg := by
    rw [restricoesCapacidade, mem_range_bind]
    exact ⟨p, hp, by simp⟩
  refine ⟨mem_buildModel_capacidade hm, mem_buildModel_capacidade hv, fun a ha => ?_⟩
  have h1 := ha _ (mem_buildModel_capacidade hm)
  have h2 := ha _ (mem_buildModel_capacidade hv)
  simp only [capMassConstr, satC, evalSum_map_range] at h1
  simp only [capVolConstr, satC, evalSum_map_range] at h2
  exact ⟨h1, h2⟩

theorem range_flatMap_congr {α : Type} {n : Nat} {f g : Nat → List α}
    (h : ∀ i < n, f i = g i) : (List.range n).flatMap f = (List.range n).flatMap g := by
  induction n with
  | zero => rfl
  | succ n ih =>
      rw [List.range_succ, List.flatMap_append, List.flatMap_append,
        ih fun i hi => h i (Nat.lt_succ_of_lt hi)]
      congr 1
      simp [List.flatMap_cons, List.flatMap_nil, h n (Nat.lt_succ_self n)]

/-- Witness for C1 at a concrete one-item, one-pallet instance. -/
theorem C1_capacidade_por_palete_witness :
    capMassConstr itens0 cfg0 0 ∈ buildModel itens0 cfg0 ∧
    capVolConstr itens0 cfg0 0 ∈ buildModel itens0 cfg0 ∧
    ∀ a : Var → Bool, satModel a (buildModel itens0 cfg0) →
      (∑ i ∈ Finset.range itens0.length,
          if a (Var.x i 0) then (it itens0 i).mass else 0) ≤ cfg0.capacidade_massa ∧
      (∑ i ∈ Finset.range itens0.length,
          if a (Var.x i 0) then (it itens0 i).vol else 0) ≤ cfg0.capacidade_volume :=
  C1_capacidade_por_palete itens0 cfg0 0 (by decide)

/-- C2: for every item index i below the item count, the built model
contains the at-most-one-pallet constraint for i; every assignment
satisfying the model places item i on at most one pallet; and, capacities
being nonnegative, the all-unloaded assignment satisfies the whole model,
so leaving every item unassigned is permitted. -/
theorem C2_no_maximo_uma_palete (itens : List Item) (cfg : PalletsConfig) :
    (∀ i < itens.length, maxUmaPaleteConstr cfg.quantidade i ∈ buildModel itens cfg) ∧
    (∀ a : Var → Bool, satModel a (buildModel itens cfg) →
      ∀ i < itens.length, ∀ p < cfg.quantidade, ∀ q < cfg.quantidade,
        a (Var.x i p) = true → a (Var.x i q) = true → p = q) ∧
    (0 ≤ cfg.capacidade_massa → 0 ≤ cfg.capacidade_volume →
      satModel unloadedAssign (buildModel itens cfg)) := by
  have hmem : ∀ i < itens.length,
      maxUmaPaleteConstr cfg.quantidade i ∈ buildModel itens cfg := by
    intro i hi
    apply mem_buildModel_item
    rw [restricoesItem, mem_range_bind]
    exact ⟨i, hi, List.mem_cons_self _ _⟩
  refine ⟨hmem, fun a ha i hi p hp q hq hap haq => ?_,
    fun hm hv => unloaded_sat itens cfg hm hv⟩
  have h1 := ha _ (hmem i hi)
  simp only [maxUmaPaleteConstr, satC, evalSum_map_range] at h1
  rw [Finset.sum_boole] at h1
  have hcard :
      ((Finset.range cfg.quantidade).filter fun p => a (Var.x i p) = true).card ≤ 1 := by
    exact_mod_cast h1
  exact Finset.card_le_one.mp hcard p
    (Finset.mem_filter.mpr ⟨Finset.mem_range.mpr hp, hap⟩) q
    (Finset.mem_filter.mpr ⟨Finset.mem_range.mpr hq, haq⟩)

/-- Witness for C2 at a concrete one-item, one-pallet instance. -/
theorem C2_no_maximo_uma_palete_witness :
    (∀ i < itens0.length, maxUmaPaleteConstr cfg0.quantidade i ∈ buildModel itens0 cfg0) ∧
    (∀ a : Var → Bool, satModel a (buildModel itens0 cfg0) →
      ∀ i < itens0.length, ∀ p < cfg0.quantidade, ∀ q < cfg0.quantidade,
        a (Var.x i p) = true → a (Var.x i q) = true → p = q) ∧
    satModel unloadedAssign (buildModel itens0 cfg0) :=
  ⟨(C2_no_maximo_uma_palete itens0 cfg0).1, (C2_no_maximo_uma_palete itens0 cfg0).2.1,
    (C2_no_maximo_uma_palete itens0 cfg0).2.2 (by decide) (by decide)⟩

/-- C3: under every assignment the objective built by otimizar evaluates to
exactly the sum over items i and pallets p of x[i,p]·vol(i)·prioridade(i),
and the objective depends only on the volumes and priorities of the items,
so mass and destination contribute nothing to it. -/
theorem C3_objetivo_exato (itens : List Item) (P : Nat) :
    (∀ a : Var → Bool,
      evalSum a (objetivo itens P) =
        ∑ i ∈ Finset.range itens.length, ∑ p ∈ Finset.range P,
          if a (Var.x i p) then (it itens i).vol * (it itens i).prioridade else 0) ∧
    (∀ itens2 : List Item, itens2.length = itens.length →
      (∀ i < itens.length, (it itens2 i).vol = (it itens i).vol ∧
          (it itens2 i).prioridade = (it itens i).prioridade) →
      objetivo itens2 P = objetivo itens P) := by
  constructor
  · intro a
    rw [objetivo, evalSum_range_bind]
    exact Finset.sum_congr rfl fun i _ => evalSum_map_range a _ _ P
  · intro itens2 hlen hvals
    rw [objetivo, objetivo, hlen]
    apply range_flatMap_congr
    intro i hi
    rw [(hvals i hi).1, (hvals i hi).2]

/-- Witness for C3: the fixture item list against a variant with different
mass and destination but the same volume and priority. -/
theorem C3_objetivo_exato_witness :
    evalSum assign0 (objetivo itens0 cfg0.quantidade) =
      (∑ i ∈ Finset.range itens0.length, ∑ p ∈ Finset.range cfg0.quantidade,
        if assign0 (Var.x i p) then (it itens0 i).vol * (it itens0 i).prioridade else 0) ∧
    objetivo itensMass0 cfg0.quantidade = objetivo itens0 cfg0.quantidade :=
  ⟨(C3_objetivo_exato itens0 cfg0.quantidade).1 assign0,
    (C3_objetivo_exato itens0 cfg0.quantidade).2 itensMass0 (by decide) (by decide)⟩

/-- C4: for every ordered pair of distinct in-range items, the built model
contains the constraint forcing s[i,j] to zero whenever item j is fragile
and whenever item i is strictly heavier than item j; every constraint of
the model whose terms mention a stacking variable is such a forced zero;
and consequently under every satisfying assignment no item rests on a
fragile item and no item rests on a strictly lighter item. -/
theorem C4_empilhamento (itens : List Item) (cfg : PalletsConfig) :
    (∀ i < itens.length, ∀ j < itens.length, i ≠ j →
      ((it itens j).f = true → sZeroConstr i j ∈ buildModel itens cfg) ∧
      ((it itens i).mass > (it itens j).mass → sZeroConstr i j ∈ buildModel itens cfg)) ∧
    (∀ c ∈ buildModel itens cfg, (∃ t ∈ c.termos, ∃ i j, t.var = Var.s i j) →
      ∃ i j, c = sZeroConstr i j) ∧
    (∀ a : Var → Bool, satModel a (buildModel itens cfg) →
      ∀ i < itens.length, ∀ j < itens.length, i ≠ j →
        ((it itens j).f = true → a (Var.s i j) = false) ∧
        ((it itens i).mass > (it itens j).mass → a (Var.s i j) = false)) := by
  have hmemf : ∀ i < itens.length, ∀ j < itens.length, i ≠ j → (it itens j).f = true →
      sZeroConstr i j ∈ restricoesEmpilhamento itens := by
    intro i hi j hj hij hf
    rw [restricoesEmpilhamento, mem_range_bind]
    refine ⟨i, hi, ?_⟩
    rw [mem_range_bind]
    refine ⟨j, hj, ?_⟩
    rw [if_neg hij]
    exact List.mem_append.mpr (Or.inl (by
      rw [if_pos hf]; exact List.mem_singleton_self _))
  have hmemw : ∀ i < itens.length, ∀ j < itens.length, i ≠ j →
      (it itens i).mass > (it itens j).mass →
      sZeroConstr i j ∈ restricoesEmpilhamento itens := by
    intro i hi j hj hij hw
    rw [restricoesEmpilhamento, mem_range_bind]
    refine ⟨i, hi, ?_⟩
    rw [mem_range_bind]
    refine ⟨j, hj, ?_⟩
    rw [if_neg hij]
    exact List.mem_append.mpr (Or.inr (by
      rw [if_pos hw]; exact List.mem_singleton_self _))
  have hsatzero : ∀ a : Var → Bool, satModel a (buildModel itens cfg) → ∀ i j,
      sZeroConstr i j ∈ restricoesEmpilhamento itens → a (Var.s i j) = false := by
    intro a ha i j hmem
    have h1 := ha _ (mem_buildModel_empilhamento hmem)
    simp only [sZeroConstr, satC, evalSum, List.map_cons, List.map_nil, List.sum_cons,
      List.sum_nil, evalTerm, add_zero] at h1
    cases hb : a (Var.s i j)
    · rfl
    · rw [hb] at h1
      simp at h1
  refine ⟨fun i hi j hj hij =>
      ⟨fun hf => mem_buildModel_empilhamento (hmemf i hi j hj hij hf),
       fun hw => mem_buildModel_empilhamento (hmemw i hi j hj hij hw)⟩,
    ?_, fun a ha i hi j hj hij =>
      ⟨fun hf => hsatzero a ha i j (hmemf i hi j hj hij hf),
       fun hw => hsatzero a ha i j (hmemw i hi j hj hij hw)⟩⟩
  intro c hc hs
  unfold buildModel at hc
  rcases List.mem_append.mp hc with h | h
  swap
  · exfalso
    rw [restricoesCapacidade, mem_range_bind] at h
    obtain ⟨p, hp, h⟩ := h
    obtain ⟨t, ht, i', j', hvar⟩ := hs
    rcases List.mem_cons.mp h with rfl | h
    · simp only [capMassConstr, Constr.termos] at ht
      rw [List.mem_map] at ht
      obtain ⟨i, _, rfl⟩ := ht
      simp at hvar
    · rw [List.mem_singleton] at h
      subst h
      simp only [capVolConstr, Constr.termos] at ht
      rw [List.mem_map] at ht
      obtain ⟨i, _, rfl⟩ := ht
      simp at hvar
  rcases List.mem_append.mp h with h | h
  · exfalso
    rw [restricoesItem, mem_range_bind] at h
    obtain ⟨i, hi, h⟩ := h
    obtain ⟨t, ht, i', j', hvar⟩ := hs
    rcases List.mem_cons.mp h with rfl | h
    · simp only [maxUmaPaleteConstr, Constr.termos] at ht
      rw [List.mem_map] at ht
      obtain ⟨p, _, rfl⟩ := ht
      simp at hvar
    · by_cases ho : (it itens i).o
      · rw [if_pos ho, List.mem_singleton] at h
        subst h
        simp only [rotUnicaConstr, Constr.termos] at ht
        rw [List.mem_map] at ht
        obtain ⟨k, _, rfl⟩ := ht
        simp at hvar
      · rw [if_neg ho] at h
        rcases List.mem_cons.mp h with rfl | h
        · simp only [rEqConstr, Constr.termos, List.mem_singleton] at ht
          subst ht
          simp at hvar
        · rw [List.mem_map] at h
          obtain ⟨k, _, rfl⟩ := h
          simp only [rEqConstr, Constr.termos, List.mem_singleton] at ht
          subst ht
          simp at hvar
  · obtain ⟨i, j, _, _, _, rfl, _⟩ := empilhamento_shape h
    exact ⟨i, j, rfl⟩

/-- Witness for C4: in the two-item fixture, stacking on the fragile item 1
is forbidden, and stacking the heavier item 1 on the lighter item 0 is
forbidden. -/
theorem C4_empilhamento_witness :
    sZeroConstr 0 1 ∈ buildModel itensEmp0 cfg0 ∧
    sZeroConstr 1 0 ∈ buildModel itensEmp0 cfg0 :=
  ⟨((C4_empilhamento itensEmp0 cfg0).1 0 (by decide) 1 (by decide) (by decide)).1
      (by decide),
   ((C4_empilhamento itensEmp0 cfg0).1 1 (by decide) 0 (by decide) (by decide)).2
      (by decide)⟩

/-- C5: for every in-range item i, the built model contains the
exactly-one-rotation constraint when i is rotatable and otherwise fixes
r[i,0] to 1 and r[i,k] to 0 for k in 1..5; consequently under every
satisfying assignment a rotatable item has exactly one rotation variable
true, a non-rotatable item has r[i,0] true and all other rotation
variables false, the extracted orientation index of a non-rotatable item
is 0, and index 0 of permutacoes is the original (l, w, h) order. -/
theorem C5_rotacao (itens : List Item) (cfg : PalletsConfig) :
    (∀ i < itens.length, (it itens i).o = true →
      rotUnicaConstr i ∈ buildModel itens cfg) ∧
    (∀ i < itens.length, (it itens i).o = false →
      rEqConstr i 0 1 ∈ buildModel itens cfg ∧
      ∀ k, 1 ≤ k → k < 6 → rEqConstr i k 0 ∈ buildModel itens cfg) ∧
    (∀ a : Var → Bool, satModel a (buildModel itens cfg) → ∀ i < itens.length,
      ((it itens i).o = true → ∃! k, k < 6 ∧ a (Var.r i k) = true) ∧
      ((it itens i).o = false →
        a (Var.r i 0) = true ∧ ∀ k, 1 ≤ k → k < 6 → a (Var.r i k) = false) ∧
      ((it itens i).o = false → orientIndex a i = some 0)) ∧
    (∀ l w h : ℚ, (permutacoes l w h).getD 0 (l, w, h) = (l, w, h)) := by
  have hrot : ∀ i < itens.length, (it itens i).o = true →
      rotUnicaConstr i ∈ buildModel itens cfg := by
    intro i hi ho
    apply mem_buildModel_item
    rw [restricoesItem, mem_range_bind]
    exact ⟨i, hi, List.mem_cons.mpr (Or.inr (by
      rw [if_pos ho]; exact List.mem_singleton_self _))⟩
  have hfix0 : ∀ i < itens.length, (it itens i).o = false →
      rEqConstr i 0 1 ∈ buildModel itens cfg := by
    intro i hi ho
    apply mem_buildModel_item
    rw [restricoesItem, mem_range_bind]
    have ho' : ¬((it itens i).o = true) := by simp [ho]
    exact ⟨i, hi, List.mem_cons.mpr (Or.inr (by
      rw [if_neg ho']; exact List.mem_cons_self _ _))⟩
  have hfixk : ∀ i < itens.length, (it itens i).o = false → ∀ k, 1 ≤ k → k < 6 →
      rEqConstr i k 0 ∈ buildModel itens cfg := by
    intro i hi ho k hk1 hk6
    apply mem_buildModel_item
    rw [restricoesItem, mem_range_bind]
    have ho' : ¬((it itens i).o = true) := by simp [ho]
    refine ⟨i, hi, List.mem_cons.mpr (Or.inr (by
      rw [if_neg ho']
      refine List.mem_cons.mpr (Or.inr ?_)
      rw [List.mem_map]
      refine ⟨k - 1, ?_, ?_⟩
      · rw [List.mem_range]; omega
      · congr 1; omega))⟩
  have hval1 : ∀ a : Var → Bool, ∀ i k b,
      satModel a (buildModel itens cfg) → rEqConstr i k b ∈ buildModel itens cfg →
      (if a (Var.r i k) then (1 : ℤ) else 0) = b := by
    intro a i k b ha hmem
    have h1 := ha _ hmem
    simpa [rEqConstr, satC, evalSum, evalTerm] using h1
  refine ⟨hrot, fun i hi ho => ⟨hfix0 i hi ho, hfixk i hi ho⟩,
    fun a ha i hi => ⟨?_, ?_, ?_⟩, by intro l w h; rfl⟩
  · intro ho
    have h1 := ha _ (hrot i hi ho)
    simp only [rotUnicaConstr, satC, evalSum_map_range] at h1
    rw [Finset.sum_boole] at h1
    have hcard :
        ((Finset.range 6).filter fun k => a (Var.r i k) = true).card = 1 := by
      exact_mod_cast h1
    obtain ⟨k0, hk0⟩ := Finset.card_eq_one.mp hcard
    refine ⟨k0, ?_, ?_⟩
    · have hk0m : k0 ∈ (Finset.range 6).filter fun k => a (Var.r i k) = true := by
        rw [hk0]; exact Finset.mem_singleton_self k0
      rw [Finset.mem_filter, Finset.mem_range] at hk0m
      exact hk0m
    · intro y hy
      have hym : y ∈ (Finset.range 6).filter fun k => a (Var.r i k) = true :=
        Finset.mem_filter.mpr ⟨Finset.mem_range.mpr hy.1, hy.2⟩
      rw [hk0, Finset.mem_singleton] at hym
      exact hym
  · intro ho
    constructor
    · have h1 := hval1 a i 0 1 ha (hfix0 i hi ho)
      cases hb : a (Var.r i 0)
      · rw [hb] at h1; simp at h1
      · rfl
    · intro k hk1 hk6
      have h1 := hval1 a i k 0 ha (hfixk i hi ho k hk1 hk6)
      cases hb : a (Var.r i k)
      · rfl
      · rw [hb] at h1; simp at h1
  · intro ho
    have h1 := hval1 a i 0 1 ha (hfix0 i hi ho)
    have hb : a (Var.r i 0) = true := by
      cases hb : a (Var.r i 0)
      · rw [hb] at h1; simp at h1
      · rfl
    rw [orientIndex, show List.range 6 = 0 :: [1, 2, 3, 4, 5] from rfl]
    exact List.find?_cons_of_pos _ hb

/-- Witness for C5 in the two-item fixture: item 1 is rotatable and gets
the exactly-one constraint, item 0 is non-rotatable and gets the fixed
rotation constraints. -/
theorem C5_rotacao_witness :
    rotUnicaConstr 1 ∈ buildModel itensEmp0 cfg0 ∧
    rEqConstr 0 0 1 ∈ buildModel itensEmp0 cfg0 ∧
    rEqConstr 0 3 0 ∈ buildModel itensEmp0 cfg0 ∧
    (∀ l w h : ℚ, (permutacoes l w h).getD 0 (l, w, h) = (l, w, h)) :=
  ⟨(C5_rotacao itensEmp0 cfg0).1 1 (by decide) (by decide),
   ((C5_rotacao itensEmp0 cfg0).2.1 0 (by decide) (by decide)).1,
   ((C5_rotacao itensEmp0 cfg0).2.1 0 (by decide) (by decide)).2 3 (by decide) (by decide),
   (C5_rotacao itensEmp0 cfg0).2.2.2⟩

/-- Counterexample to C6 as stated: with a zero-pallet configuration the
builder does not fail; it produces a model and hands it to the solver. -/
theorem C6_counterexample :
    otimizarBuild itens0 ⟨0, 1000, 2000, "PBR"⟩ =
      BuildOutcome.modelToSolve (buildModel itens0 ⟨0, 1000, 2000, "PBR"⟩)
        (objetivo itens0 0) ∧
    otimizarBuild itens0 ⟨0, 1000, 2000, "PBR"⟩ ≠ BuildOutcome.invalidConfiguration :=
  ⟨rfl, by decide⟩

/-- C6 amended: otimizar performs no input validation at all; for every
item list and configuration, including zero pallets, non-positive
capacities and items with non-positive dimensions or mass, the model is
built and handed to the solver, and the InvalidConfiguration outcome is
never produced. -/
theorem C6_sem_validacao (itens : List Item) (cfg : PalletsConfig) :
    otimizarBuild itens cfg =
      BuildOutcome.modelToSolve (buildModel itens cfg) (objetivo itens cfg.quantidade) ∧
    otimizarBuild itens cfg ≠ BuildOutcome.invalidConfiguration := by
  exact ⟨rfl, by simp [otimizarBuild]⟩

/-- C10: with no solver result calcular_metricas returns the empty dict
for every item list and every configuration alike, so it performs no
computation over either. -/
theorem C10_sem_solver (itens : List Item) (cfg : PalletsConfig) :
    calcular_metricas itens none cfg = Except.ok MetricasResult.vazio := rfl

/-- Counterexample to C7 as stated: with an empty item list and a present
solver result, calcular_metricas reaches the division by len(itens) and
fails with a zero-division error; no configuration check rejects the
empty list first. -/
theorem C7_counterexample :
    calcular_metricas [] (some assign0) cfg0 = Except.error CalcError.zeroDivision := rfl

/-- Under the at-most-one-pallet property, the number of loaded items is
at most the number of items. -/
theorem itensCarregados_le (itens : List Item) (a : Var → Bool) (P : Nat)
    (hone : ∀ i < itens.length,
      (∑ p ∈ Finset.range P, if a (Var.x i p) then (1 : ℕ) else 0) ≤ 1) :
    itensCarregados itens a P ≤ itens.length := by
  have h1 : itensCarregados itens a P = ∑ p ∈ Finset.range P, paleteItens itens a p := by
    unfold itensCarregados
    apply Finset.sum_congr rfl
    intro p _
    by_cases h : 0 < paleteItens itens a p
    · rw [if_pos h]
    · rw [if_neg h]
      omega
  have h2 : ∑ p ∈ Finset.range P, paleteItens itens a p =
      ∑ i ∈ Finset.range itens.length,
        ∑ p ∈ Finset.range P, if a (Var.x i p) then 1 else 0 := by
    unfold paleteItens
    rw [Finset.sum_comm]
  calc itensCarregados itens a P
      = ∑ i ∈ Finset.range itens.length,
          ∑ p ∈ Finset.range P, if a (Var.x i p) then 1 else 0 := by rw [h1, h2]
    _ ≤ ∑ i ∈ Finset.range itens.length, 1 :=
        Finset.sum_le_sum fun i hi => hone i (Finset.mem_range.mp hi)
    _ = itens.length := by simp

/-- Reduction of calcular_metricas on a present solver result and a
non-empty item list to its explicit metrics record. -/
theorem calcular_metricas_eq (itens : List Item) (a : Var → Bool)
    (cfg : PalletsConfig) (hne : itens.length ≠ 0) :
    calcular_metricas itens (some a) cfg = .ok (.metricas
      { pallets_utilizados := palletsUtilizados itens a cfg.quantidade
        itens_carregados := itensCarregados itens a cfg.quantidade
        itens_total := itens.length
        taxa_utilizacao_itens :=
          ((itensCarregados itens a cfg.quantidade : ℚ) / (itens.length : ℚ)) * 100
        volume_utilizado := (volumeTotalUtilizado itens a cfg.quantidade : ℚ) / (SCALE_VOL : ℚ)
        volume_disponivel :=
          ((cfg.capacidade_volume * (palletsUtilizados itens a cfg.quantidade : ℤ) : ℤ) : ℚ)
            / (SCALE_VOL : ℚ)
        taxa_utilizacao_volume :=
          if 0 < cfg.capacidade_volume * (palletsUtilizados itens a cfg.quantidade : ℤ) then
            ((volumeTotalUtilizado itens a cfg.quantidade : ℚ) /
              ((cfg.capacidade_volume * (palletsUtilizados itens a cfg.quantidade : ℤ) : ℤ) : ℚ))
              * 100
          else 0
        peso_utilizado := (pesoTotalUtilizado itens a cfg.quantidade : ℚ) / (SCALE_MASS : ℚ)
        peso_disponivel :=
          ((cfg.capacidade_massa * (palletsUtilizados itens a cfg.quantidade : ℤ) : ℤ) : ℚ)
            / (SCALE_MASS : ℚ)
        taxa_utilizacao_peso :=
          if 0 < cfg.capacidade_massa * (palletsUtilizados itens a cfg.quantidade : ℤ) then
            ((pesoTotalUtilizado itens a cfg.quantidade : ℚ) /
              ((cfg.capacidade_massa * (palletsUtilizados itens a cfg.quantidade : ℤ) : ℤ) : ℚ))
              * 100
          else 0 }) := by
  simp only [calcular_metricas]
  rw [if_neg hne]

/-- C7 amended: the empty item list is not rejected (the metrics call
fails with a zero-division error instead, see the counterexample); for
every non-empty item list and every assignment placing each item on at
most one pallet, calcular_metricas succeeds and the reported item
utilization equals itens_carregados / itens_total · 100 and lies between
0 and 100. -/
theorem C7_taxa_itens (itens : List Item) (a : Var → Bool) (cfg : PalletsConfig)
    (hne : itens.length ≠ 0)
    (hone : ∀ i < itens.length,
      (∑ p ∈ Finset.range cfg.quantidade, if a (Var.x i p) then (1 : ℕ) else 0) ≤ 1) :
    ∃ m : Metricas, calcular_metricas itens (some a) cfg = .ok (.metricas m) ∧
      m.itens_carregados = itensCarregados itens a cfg.quantidade ∧
      m.itens_total = itens.length ∧
      m.taxa_utilizacao_itens =
        ((itensCarregados itens a cfg.quantidade : ℚ) / (itens.length : ℚ)) * 100 ∧
      0 ≤ m.taxa_utilizacao_itens ∧ m.taxa_utilizacao_itens ≤ 100 := by
  refine ⟨_, calcular_metricas_eq itens a cfg hne, rfl, rfl, rfl, ?_, ?_⟩
  · have h0 : (0 : ℚ) ≤ (itensCarregados itens a cfg.quantidade : ℚ) := by positivity
    have hn : (0 : ℚ) < (itens.length : ℚ) := by
      exact_mod_cast Nat.pos_of_ne_zero hne
    positivity
  · have hle : (itensCarregados itens a cfg.quantidade : ℚ) ≤ (itens.length : ℚ) := by
      exact_mod_cast itensCarregados_le itens a cfg.quantidade hone
    have hn : (0 : ℚ) < (itens.length : ℚ) := by
      exact_mod_cast Nat.pos_of_ne_zero hne
    have hdiv : (itensCarregados itens a cfg.quantidade : ℚ) / (itens.length : ℚ) ≤ 1 :=
      (div_le_one hn).mpr hle
    nlinarith [hdiv]

/-- Witness for C7 at the one-item fixture with the item loaded. -/
theorem C7_taxa_itens_witness :
    ∃ m : Metricas, calcular_metricas itens0 (some assign0) cfg0 = .ok (.metricas m) ∧
      m.itens_carregados = itensCarregados itens0 assign0 cfg0.quantidade ∧
      m.itens_total = itens0.length ∧
      m.taxa_utilizacao_itens =
        ((itensCarregados itens0 assign0 cfg0.quantidade : ℚ) / (itens0.length : ℚ)) * 100 ∧
      0 ≤ m.taxa_utilizacao_itens ∧ m.taxa_utilizacao_itens ≤ 100 :=
  C7_taxa_itens itens0 assign0 cfg0 (by decide) (by decide)

/-- C9: for a present solver result on a non-empty item list, the loaded
volume is the sum over used pallets, the available volume is
capacidade_volume times the number of used pallets, the volume utilization
is 0 when no pallet is used and equals loaded/available · 100 when some
pallet is used and the volume capacity is positive; the mass quantities
behave symmetrically; reported volumes and masses are converted back by
the scale constants. -/
theorem C9_metricas_disponibilidade (itens : List Item) (a : Var → Bool)
    (cfg : PalletsConfig) (hne : itens.length ≠ 0) :
    ∃ m : Metricas, calcular_metricas itens (some a) cfg = .ok (.metricas m) ∧
      m.pallets_utilizados = palletsUtilizados itens a cfg.quantidade ∧
      m.volume_utilizado =
        (volumeTotalUtilizado itens a cfg.quantidade : ℚ) / (SCALE_VOL : ℚ) ∧
      m.peso_utilizado =
        (pesoTotalUtilizado itens a cfg.quantidade : ℚ) / (SCALE_MASS : ℚ) ∧
      m.volume_disponivel =
        ((cfg.capacidade_volume * (palletsUtilizados itens a cfg.quantidade : ℤ) : ℤ) : ℚ)
          / (SCALE_VOL : ℚ) ∧
      m.peso_disponivel =
        ((cfg.capacidade_massa * (palletsUtilizados itens a cfg.quantidade : ℤ) : ℤ) : ℚ)
          / (SCALE_MASS : ℚ) ∧
      (palletsUtilizados itens a cfg.quantidade = 0 →
        m.taxa_utilizacao_volume = 0 ∧ m.taxa_utilizacao_peso = 0) ∧
      (0 < palletsUtilizados itens a cfg.quantidade → 0 < cfg.capacidade_volume →
        m.taxa_utilizacao_volume =
          ((volumeTotalUtilizado itens a cfg.quantidade : ℚ) /
            ((cfg.capacidade_volume * (palletsUtilizados itens a cfg.quantidade : ℤ) : ℤ) : ℚ))
            * 100) ∧
      (0 < palletsUtilizados itens a cfg.quantidade → 0 < cfg.capacidade_massa →
        m.taxa_utilizacao_peso =
          ((pesoTotalUtilizado itens a cfg.quantidade : ℚ) /
            ((cfg.capacidade_massa * (palletsUtilizados itens a cfg.quantidade : ℤ) : ℤ) : ℚ))
            * 100) := by
  refine ⟨_, calcular_metricas_eq itens a cfg hne, rfl, rfl, rfl, rfl, rfl, ?_, ?_, ?_⟩
  · intro hpu
    constructor
    · dsimp only
      simp [hpu]
    · dsimp only
      simp [hpu]
  · intro hpu hcap
    have hpos : (0 : ℤ) < cfg.capacidade_volume * (palletsUtilizados itens a cfg.quantidade : ℤ) :=
      mul_pos hcap (by exact_mod_cast hpu)
    dsimp only
    rw [if_pos hpos]
  · intro hpu hcap
    have hpos : (0 : ℤ) < cfg.capacidade_massa * (palletsUtilizados itens a cfg.quantidade : ℤ) :=
      mul_pos hcap (by exact_mod_cast hpu)
    dsimp only
    rw [if_pos hpos]

/-- Witness for C9 at the one-item fixture. -/
theorem C9_metricas_disponibilidade_witness :
    ∃ m : Metricas, calcular_metricas itens0 (some assign0) cfg0 = .ok (.metricas m) ∧
      m.pallets_utilizados = palletsUtilizados itens0 assign0 cfg0.quantidade ∧
      m.volume_disponivel =
        ((cfg0.capacidade_volume * (palletsUtilizados itens0 assign0 cfg0.quantidade : ℤ) : ℤ) : ℚ)
          / (SCALE_VOL : ℚ) := by
  obtain ⟨m, h1, h2, _, _, h5, _⟩ :=
    C9_metricas_disponibilidade itens0 assign0 cfg0 (by decide)
  exact ⟨m, h1, h2, h5⟩

/-- Loop invariant of the per-pallet placement loop: a placement emitted
while scanning the suffix suf from index m with cursor z belongs to an
assigned in-range item, sits at the pallet x-offset with y = 0, carries
the permuted dimensions of its item, and its z origin is the incoming
cursor plus the permuted heights of the assigned items scanned before it. -/
theorem placeAux_spec (a : Var → Bool) (p : Nat) (offx : ℚ) :
    ∀ (suf : List Item) (m : Nat) (z : ℚ) (pl : Placement),
      pl ∈ placeAux a p offx suf m z →
      m ≤ pl.item_index ∧ pl.item_index < m + suf.length ∧
      a (Var.x pl.item_index p) = true ∧ pl.x0 = offx ∧ pl.y0 = 0 ∧
      (pl.boxl, pl.boxw, pl.boxh) =
        dimsOrientadas a (suf.getD (pl.item_index - m) dummyItem) pl.item_index ∧
      pl.z0 = z + ∑ j ∈ Finset.Ico m pl.item_index,
        (if a (Var.x j p) then
          (dimsOrientadas a (suf.getD (j - m) dummyItem) j).2.2 else 0) := by
  intro suf
  induction suf with
  | nil =>
      intro m z pl h
      simp [placeAux] at h
  | cons item rest ih =>
      intro m z pl h
      simp only [placeAux] at h
      by_cases hx : a (Var.x m p) = true
      · rw [if_pos hx] at h
        rcases List.mem_cons.mp h with rfl | h
        · refine ⟨le_refl m, by simp only [List.length_cons]; omega, hx, rfl, rfl, ?_, ?_⟩
          · rw [Nat.sub_self, List.getD_cons_zero]
          · simp [Finset.Ico_self]
        · obtain ⟨h1, h2, h3, h4, h5, h6, h7⟩ :=
            ih (m + 1) (z + (dimsOrientadas a item m).2.2) pl h
          refine ⟨by omega, by simp only [List.length_cons]; omega, h3, h4, h5, ?_, ?_⟩
          · rw [h6]
            congr 1
            have hidx : pl.item_index - m = (pl.item_index - (m + 1)) + 1 := by omega
            rw [hidx, List.getD_cons_succ]
          · rw [h7, Finset.sum_eq_sum_Ico_succ_bot (show m < pl.item_index by omega)]
            have hf : ∀ j ∈ Finset.Ico (m + 1) pl.item_index,
                (if a (Var.x j p) then
                  (dimsOrientadas a ((item :: rest).getD (j - m) dummyItem) j).2.2 else 0) =
                (if a (Var.x j p) then
                  (dimsOrientadas a (rest.getD (j - (m + 1)) dummyItem) j).2.2 else 0) := by
              intro j hj
              rw [Finset.mem_Ico] at hj
              have hjm : j - m = (j - (m + 1)) + 1 := by omega
              rw [hjm, List.getD_cons_succ]
            rw [Finset.sum_congr rfl hf]
            have hcons : (if a (Var.x m p) then
                (dimsOrientadas a ((item :: rest).getD (m - m) dummyItem) m).2.2 else 0) =
                (dimsOrientadas a item m).2.2 := by
              rw [Nat.sub_self, List.getD_cons_zero, if_pos hx]
            rw [hcons]
            ring
      · rw [if_neg hx] at h
        obtain ⟨h1, h2, h3, h4, h5, h6, h7⟩ := ih (m + 1) z pl h
        refine ⟨by omega, by simp only [List.length_cons]; omega, h3, h4, h5, ?_, ?_⟩
        · rw [h6]
          congr 1
          have hidx : pl.item_index - m = (pl.item_index - (m + 1)) + 1 := by omega
          rw [hidx, List.getD_cons_succ]
        · rw [h7, Finset.sum_eq_sum_Ico_succ_bot (show m < pl.item_index by omega)]
          have hf : ∀ j ∈ Finset.Ico (m + 1) pl.item_index,
              (if a (Var.x j p) then
                (dimsOrientadas a ((item :: rest).getD (j - m) dummyItem) j).2.2 else 0) =
              (if a (Var.x j p) then
                (dimsOrientadas a (rest.getD (j - (m + 1)) dummyItem) j).2.2 else 0) := by
            intro j hj
            rw [Finset.mem_Ico] at hj
            have hjm : j - m = (j - (m + 1)) + 1 := by omega
            rw [hjm, List.getD_cons_succ]
          rw [Finset.sum_congr rfl hf]
          have hcons : (if a (Var.x m p) then
              (dimsOrientadas a ((item :: rest).getD (m - m) dummyItem) m).2.2 else 0) =
              0 := by
            rw [if_neg hx]
          rw [hcons]
          ring

/-- C8: every box plotted for pallet p by the visualization loop belongs
to an in-range item assigned to p, its footprint origin is the pallet
x-offset p·2.5 with y = 0 (pallet-local origin (0,0), pallets offset along
the x axis only), its dimensions are the permuted dimensions of the item,
and its z origin equals the sum of the permuted heights of the
lower-indexed items assigned to the same pallet. -/
theorem C8_geometria (itens : List Item) (a : Var → Bool) (p : Nat)
    (pl : Placement) (hmem : pl ∈ criarVisualizacaoPalete itens a p) :
    pl.item_index < itens.length ∧ a (Var.x pl.item_index p) = true ∧
    pl.x0 = (p : ℚ) * (5 / 2) ∧ pl.y0 = 0 ∧
    (pl.boxl, pl.boxw, pl.boxh) =
      dimsOrientadas a (it itens pl.item_index) pl.item_index ∧
    pl.z0 = ∑ j ∈ Finset.range pl.item_index,
      (if a (Var.x j p) then (dimsOrientadas a (it itens j) j).2.2 else 0) := by
  obtain ⟨h1, h2, h3, h4, h5, h6, h7⟩ :=
    placeAux_spec a p ((p : ℚ) * (5 / 2)) itens 0 0 pl hmem
  refine ⟨by omega, h3, h4, h5, ?_, ?_⟩
  · rw [h6]
    simp [it]
  · rw [h7, zero_add, Finset.range_eq_Ico]
    apply Finset.sum_congr rfl
    intro j hj
    simp [it]

/-- The fixture assignment always extracts orientation 0. -/
theorem orientIndex_assignBoth (i : Nat) : orientIndex assignBoth i = some 0 := by
  rw [orientIndex, show List.range 6 = 0 :: [1, 2, 3, 4, 5] from rfl]
  exact List.find?_cons_of_pos _ rfl

/-- Witness for C8: in the two-item fixture with both items on pallet 0,
the second box sits on top of the first at height 1. -/
theorem C8_geometria_witness :
    plW.item_index < itensEmp0.length ∧ assignBoth (Var.x plW.item_index 0) = true ∧
    plW.x0 = ((0 : Nat) : ℚ) * (5 / 2) ∧ plW.y0 = 0 ∧
    (plW.boxl, plW.boxw, plW.boxh) =
      dimsOrientadas assignBoth (it itensEmp0 plW.item_index) plW.item_index ∧
    plW.z0 = ∑ j ∈ Finset.range plW.item_index,
      (if assignBoth (Var.x j 0) then
        (dimsOrientadas assignBoth (it itensEmp0 j) j).2.2 else 0) :=
  C8_geometria itensEmp0 assignBoth 0 plW (by
    have hlist : criarVisualizacaoPalete itensEmp0 assignBoth 0 =
        [⟨0, 0, 0, 0, 1, 1, 1⟩, plW] := by
      norm_num [criarVisualizacaoPalete, placeAux, assignBoth, dimsOrientadas,
        orientIndex_assignBoth, permutacoes, itensEmp0, item0, it, plW]
    rw [hlist]
    exact List.mem_cons_of_mem _ (List.mem_cons_self _ _))

end Paletizador
